import Mathlib

/-!
Verification of the incremental synchronization and diagnostics engine of the
ximgdock repository: the structural validator (`Parser.validateXHTML` and its
tier-2 line rules), the preview line mapper (`PreviewProvider._getHtmlForWebview`),
the reveal/highlight handler (`PreviewProvider.handleRevealLine`), the debounce
coordinators (`DiagnosticManager.updateDiagnostics`, `PreviewManager.updatePreview`)
and the image-path rewrites (`PreviewManager.fixImagePaths` and the
`PreviewProvider` rewrite).

The external `fast-xml-parser` library (tier-1 well-formedness check and the
structure parser) is not part of the repository; its outcome is modelled as an
oracle argument (`Tier1`, and an `Except` for `parser.parse`), so every theorem
about `validateXHTML` is explicit about which tier-1 verdict it assumes.

JavaScript regular expressions used by the source are embedded as explicit
character scanners with the same backtracking semantics (greedy / lazy
quantifiers, `g` and `i` flags, `lastIndex` advance of `exec`).
-/

/-- Severity of a finding, `'error' | 'warning'` in the source. -/
inductive Severity where
  | error
  | warning
deriving DecidableEq, BEq, Repr

/-- `ParseError` interface of `src/parser/Parser.ts` (lines 233-238 of the
bundled sources): a positioned finding. Lines and columns are 0-based. -/
structure ParseError where
  line : Nat
  column : Nat
  message : String
  severity : Severity
deriving DecidableEq, Repr

/-- `ParseResult` interface (lines 240-244): validity flag, findings, and the
optional parsed structure. Only the presence of `data` matters here, so it is
modelled as `Option Unit`. -/
structure ParseResult where
  isValid : Bool
  errors : List ParseError
  data : Option Unit
deriving DecidableEq, Repr

/-- Shape of the error object `validationResult.err` reported by the external
well-formedness checker: either a record with optional `line`, `col`, `msg`
fields, or a plain string. The checker reports 1-based line numbers. -/
inductive CheckErr where
  | fields (line : Option Nat) (col : Option Nat) (msg : Option String)
  | str (s : String)
deriving DecidableEq, Repr

/-- Outcome of the external tier-1 check `XMLValidator.validate`:
it returned `true`, returned an error object (possibly without `err`),
or threw. -/
inductive Tier1 where
  | ok
  | invalid (err : Option CheckErr)
  | thrown (e : String)
deriving DecidableEq, Repr

/-- `Parser.parseValidationError` (lines 302-329): converts the checker error
into a 0-based `ParseError`.  The checker's 1-based `line` is converted with
`error.line - 1`; missing fields default to `(0, 0, "XML構文エラー")`. -/
def parseValidationError (err : Option CheckErr) : ParseError :=
  match err with
  | none => { line := 0, column := 0, message := "XML構文エラー", severity := Severity.error }
  | some (CheckErr.str s) => { line := 0, column := 0, message := s, severity := Severity.error }
  | some (CheckErr.fields l c m) =>
      { line := match l with | some v => v - 1 | none => 0,
        column := c.getD 0,
        message := m.getD "XML構文エラー",
        severity := Severity.error }

/-- The finding pushed by the `catch` branch of `validateXHTML`
(lines 289-297): a single error at `(0, 0)` describing the parse failure. -/
def catchFinding (e : String) : ParseError :=
  { line := 0, column := 0, message := "パースエラー: " ++ e, severity := Severity.error }

/-- JavaScript `content.split('\n')` on the character list: always at least one
(possibly empty) line. -/
def splitNlChars : List Char → List (List Char)
  | [] => [[]]
  | c :: cs =>
    if c = '\n' then [] :: splitNlChars cs
    else
      match splitNlChars cs with
      | [] => [[c]]
      | l :: ls => (c :: l) :: ls

/-- JavaScript `content.split('\n')` as a list of strings. -/
def splitNl (s : String) : List String := (splitNlChars s.data).map String.mk

/-- JavaScript `String.prototype.trim` on the character list. -/
def trimChars (cs : List Char) : List Char :=
  ((cs.dropWhile Char.isWhitespace).reverse.dropWhile Char.isWhitespace).reverse

/-- JavaScript `String.prototype.toLowerCase` (ASCII range, as all inputs the
rules inspect are ASCII keywords). -/
def toLowerChars (cs : List Char) : List Char := cs.map Char.toLower

/-- Case-insensitive character comparison (the `i` flag of the source's
regular expressions). -/
def lcEq (a b : Char) : Bool := a.toLower == b.toLower

/-- Match a literal pattern case-insensitively at the head of the input,
returning the remaining input. -/
def matchLiteralCI : List Char → List Char → Option (List Char)
  | [], cs => some cs
  | _ :: _, [] => none
  | p :: ps, c :: cs => if lcEq p c then matchLiteralCI ps cs else none

/-- Length of the longest leading run of characters other than `'>'`:
the maximal number of characters the greedy `[^>]*` can consume. -/
def leadRun : List Char → Nat
  | [] => 0
  | c :: cs => if c = '>' then 0 else leadRun cs + 1

/-- Can `[^>]*[^/]>` succeed with `[^>]*` consuming exactly `k` characters?
(`cs` are the characters after the tag-name literal; the characters before
index `k` are known to be non-`'>'` because `k` never exceeds `leadRun cs`.) -/
def groupOkAt (cs : List Char) (k : Nat) : Bool :=
  match cs[k]?, cs[k + 1]? with
  | some a, some b => a != '/' && b == '>'
  | _, _ => false

/-- Backtracking for the greedy `[^>]*` of `<el([^>]*[^/])>`: try the largest
consumption first, as the JavaScript engine does.  On success returns the
total number of characters consumed after the tag-name literal (`k + 2`). -/
def tryGroupDesc (cs : List Char) : Nat → Option Nat
  | 0 => if groupOkAt cs 0 then some 2 else none
  | k + 1 => if groupOkAt cs (k + 1) then some (k + 3) else tryGroupDesc cs k

/-- Match of the regular expression `<el([^>]*[^/])>` (flags `gi`) at the head
of the input, returning the length of the match. -/
def matchVoidAt (el : List Char) (cs : List Char) : Option Nat :=
  match matchLiteralCI ('<' :: el) cs with
  | none => none
  | some rest => (tryGroupDesc rest (leadRun rest)).map (fun g => 1 + el.length + g)

/-- The `while ((match = regex.exec(line)) !== null)` loop of
`checkSelfClosingTags`: scan left to right, recording each match index and
resuming after the matched text.  `fuel` bounds the scan (one unit per
consumed character; `length + 1` always suffices). -/
def scanVoidF (el : List Char) : Nat → List Char → Nat → List Nat
  | 0, _, _ => []
  | _ + 1, [], _ => []
  | fuel + 1, c :: cs, pos =>
    match matchVoidAt el (c :: cs) with
    | some n => pos :: scanVoidF el fuel ((c :: cs).drop n) (pos + n)
    | none => scanVoidF el fuel cs (pos + 1)

/-- The fixed void-element list of `Parser.checkSelfClosingTags` (line 359). -/
def voidElements : List String :=
  ["area", "base", "br", "col", "embed", "hr", "img", "input", "link", "meta", "source", "track", "wbr"]

/-- Warning message of the self-closing rule (line 370). -/
def selfClosingMessage (el : String) : String :=
  "<" ++ el ++ ">要素はXHTMLでは自己終了タグである必要があります: <" ++ el ++ ".../>"

/-- `Parser.checkSelfClosingTags` (lines 357-377): for each void element,
every match of `<el([^>]*[^/])>` (flags `gi`) on the line yields one warning
at the match index. -/
def checkSelfClosingTags (line : String) (lineNumber : Nat) : List ParseError :=
  voidElements.flatMap (fun el =>
    (scanVoidF el.data (line.length + 1) line.data 0).map (fun col =>
      { line := lineNumber, column := col, message := selfClosingMessage el,
        severity := Severity.warning }))

/-- Index of the first `'>'` in the input, if any. -/
def firstGtIdx : List Char → Option Nat
  | [] => none
  | c :: cs => if c = '>' then some 0 else (firstGtIdx cs).map (· + 1)

/-- Match of `<el[^>]*>` (flags `gi`) at the head of the input, returning the
length of the match: the greedy `[^>]*` runs to the first `'>'`. -/
def matchSimpleTagAt (el : List Char) (cs : List Char) : Option Nat :=
  match matchLiteralCI ('<' :: el) cs with
  | none => none
  | some rest => (firstGtIdx rest).map (fun k => 1 + el.length + k + 1)

/-- All matches `(index, length)` of `<el[^>]*>` in the line, in `exec` order. -/
def scanSimpleTagF (el : List Char) : Nat → List Char → Nat → List (Nat × Nat)
  | 0, _, _ => []
  | _ + 1, [], _ => []
  | fuel + 1, c :: cs, pos =>
    match matchSimpleTagAt el (c :: cs) with
    | some n => (pos, n) :: scanSimpleTagF el fuel ((c :: cs).drop n) (pos + n)
    | none => scanSimpleTagF el fuel cs (pos + 1)

/-- Substring containment, as JavaScript `String.prototype.includes`. -/
def containsSub : List Char → List Char → Bool
  | [], needle => needle.isEmpty
  | h :: hs, needle => needle.isPrefixOf (h :: hs) || containsSub hs needle

/-- Index of the first occurrence of `needle`, as JavaScript `indexOf`. -/
def indexOfSub : List Char → List Char → Option Nat
  | [], needle => if needle.isEmpty then some 0 else none
  | h :: hs, needle =>
    if needle.isPrefixOf (h :: hs) then some 0 else (indexOfSub hs needle).map (· + 1)

/-- Warning message of the mandatory-attribute rule (lines 391 and 407). -/
def altMessage (el : String) : String := "<" ++ el ++ ">要素にはalt属性が必要です"

/-- One block of `Parser.checkRequiredAttributes`: collect the matches of
`<el[^>]*>`, and for each matched tag text lacking `alt=` push a warning at
`line.indexOf(tagText)` (the first occurrence of the matched text, as the
source does). -/
def requiredAttrScan (el : String) (line : String) (lineNumber : Nat) : List ParseError :=
  ((scanSimpleTagF el.data (line.length + 1) line.data 0).map
      (fun pl => ((line.data.drop pl.fst).take pl.snd))).filterMap
    (fun tag =>
      if containsSub tag "alt=".data then none
      else some { line := lineNumber, column := (indexOfSub line.data tag).getD 0,
                  message := altMessage el, severity := Severity.warning })

/-- `Parser.checkRequiredAttributes` (lines 379-415): the `img` block then the
`area` block. -/
def checkRequiredAttributes (line : String) (lineNumber : Nat) : List ParseError :=
  requiredAttrScan "img" line lineNumber ++ requiredAttrScan "area" line lineNumber

/-- Warning message of the doctype rule (line 424). -/
def doctypeMessage : String := "XHTMLファイルにはXHTML DOCTYPE宣言を使用することを推奨します"

/-- `Parser.checkDoctype` (lines 417-430): warn when the trimmed line starts
(case-insensitively) with `<!doctype html` and the line does not contain
`XHTML`. -/
def checkDoctype (line : String) (lineNumber : Nat) : List ParseError :=
  if "<!doctype html".data.isPrefixOf (toLowerChars (trimChars line.data))
      && !(containsSub line.data "XHTML".data)
  then [{ line := lineNumber, column := 0, message := doctypeMessage, severity := Severity.warning }]
  else []

/-- `Parser.validateXHTMLSpecific` (lines 331-355): split on `'\n'` and run the
three line rules; the doctype rule only on line 0, or line 1 when line 0 is an
XML prolog. -/
def validateXHTMLSpecific (content : String) : List ParseError :=
  let lines := splitNl content
  let firstProlog := match lines.head? with
    | some l0 => "<?xml".data.isPrefixOf l0.data
    | none => false
  lines.enum.flatMap (fun il =>
    checkSelfClosingTags il.snd il.fst ++ checkRequiredAttributes il.snd il.fst ++
    (if il.fst = 0 || (il.fst = 1 && firstProlog) then checkDoctype il.snd il.fst else []))

/-- `Parser.validateXHTML` (lines 261-300), with the two external calls as
oracle arguments: `tier1` is the outcome of `XMLValidator.validate(content)`
and `parseOracle` the outcome of `this.parser.parse(content)` (consulted only
when the result is still valid after tier 2).  A `thrown` tier-1 outcome and a
throwing parse both land in the `catch` branch, which appends a single
`catchFinding` and clears validity; `data` stays unset on every failing path. -/
def validateXHTML (tier1 : Tier1) (parseOracle : Except String Unit) (content : String) :
    ParseResult :=
  match tier1 with
  | Tier1.thrown e => { isValid := false, errors := [catchFinding e], data := none }
  | Tier1.invalid err => { isValid := false, errors := [parseValidationError err], data := none }
  | Tier1.ok =>
    let xhtmlErrors := validateXHTMLSpecific content
    let isValidAfter :=
      if xhtmlErrors.length > 0 then xhtmlErrors.any (fun e => e.severity == Severity.error)
      else true
    if isValidAfter then
      match parseOracle with
      | Except.ok _ => { isValid := true, errors := xhtmlErrors, data := some () }
      | Except.error e => { isValid := false, errors := xhtmlErrors ++ [catchFinding e], data := none }
    else
      { isValid := false, errors := xhtmlErrors, data := none }

/-- Decimal digit character. -/
def natDigitChar (n : Nat) : Char := Char.ofNat (48 + n)

/-- Decimal rendering of a natural number (JavaScript template interpolation
`${index + 1}`), with fuel (`n + 1` always suffices). -/
def natToStrAux : Nat → Nat → List Char
  | 0, _ => []
  | fuel + 1, n =>
    if n < 10 then [natDigitChar n]
    else natToStrAux fuel (n / 10) ++ [natDigitChar (n % 10)]

/-- Decimal rendering of a natural number as a string. -/
def natToStr (n : Nat) : String := String.mk (natToStrAux (n + 1) n)

/-- One entry of the line map of `PreviewProvider._getHtmlForWebview`
(previewProvider.ts lines 135-141 / part_008 lines 179-187): a blank
(whitespace-only) line becomes the spacer `<br>`; any other line is embedded,
as is, in a `div` carrying its 1-based source line number. -/
def renderLine (index : Nat) (line : String) : String :=
  if trimChars line.data = [] then "<br>"
  else "<div data-line=\"" ++ natToStr (index + 1) ++ "\">" ++ line ++ "</div>"

/-- The full line map: `content.split('\n').map((line, index) => ...)`. -/
def renderLines (content : String) : List String :=
  (splitNl content).enum.map (fun il => renderLine il.fst il.snd)

/-- JavaScript `Array.prototype.join('')`. -/
def joinAll : List String → String
  | [] => ""
  | s :: rest => s ++ joinAll rest

/-- The rendered representation pushed to the webview:
`lines.map(...).join('')` (before the image-path rewrite). -/
def renderContent (content : String) : String := joinAll (renderLines content)

/-- The `RenderedLine` view of the line map: the source-tagged (`data-line`)
output units, one per non-blank source line, with their 0-based source line
index.  Blank lines contribute the `<br>` spacer instead and so do not appear
here. -/
def renderedLineEntries (content : String) : List (Nat × String) :=
  (splitNl content).enum.filterMap (fun il =>
    if trimChars il.snd.data = [] then none else some (il.fst, renderLine il.fst il.snd))

/-- Modelled from the spec: "any markup-breaking characters in plain text
nodes must be escaped before embedding".  The escaping the spec calls for,
used only as the refinement target the source is compared against. -/
def escapeMarkup (s : String) : String :=
  joinAll (s.data.map (fun c =>
    if c = '<' then "&lt;"
    else if c = '>' then "&gt;"
    else if c = '&' then "&amp;"
    else String.singleton c))

/-- Modelled from the spec: the line map as the spec describes it, with the
plain-text content escaped before being embedded in the fragment. -/
def renderLineEscaped (index : Nat) (line : String) : String :=
  if trimChars line.data = [] then "<br>"
  else "<div data-line=\"" ++ natToStr (index + 1) ++ "\">" ++ escapeMarkup line ++ "</div>"

/-- Effects of one `revealLine` message handled by
`PreviewProvider.handleRevealLine` (part_008 lines 112-134): which 0-based
line was passed to `editor.revealRange` / highlighted, whether a previously
pending highlight-decay timer was cleared, and the decay delay scheduled. -/
structure RevealEffect where
  revealedLine : Option Nat
  highlightLine : Option Nat
  clearedPriorTimer : Bool
  scheduledDecayMs : Option Nat
deriving DecidableEq, Repr

/-- `PreviewProvider.handleRevealLine` (part_008 lines 112-134): with no source
editor the message is dropped; otherwise the 1-based `line` is converted to
0-based with `line - 1` and revealed and highlighted as is — the document's
line count is never consulted.  A pending highlight timeout is cleared and a
new 1000 ms decay is scheduled. -/
def handleRevealLine (hasEditor priorTimer : Bool) (line : Nat) : RevealEffect :=
  if hasEditor then
    { revealedLine := some (line - 1), highlightLine := some (line - 1),
      clearedPriorTimer := priorTimer, scheduledDecayMs := some 1000 }
  else
    { revealedLine := none, highlightLine := none,
      clearedPriorTimer := false, scheduledDecayMs := none }

/-- The clamp `Math.max(0, Math.min(line, lineCount - 1))` performed by
`DiagnosticManager.createDiagnostic` (line 106) when positioning a finding —
the only place in the sources where a line is clamped to the document. -/
def clampLine (line lineCount : Nat) : Nat := max 0 (min line (lineCount - 1))

/-- Debounce state of one coordinator for one document: the pending scheduled
computation (with the text the computation will read when the timer fires),
how many pending computations have been cancelled, and the texts over which
the computation has actually run. -/
structure DebounceState where
  pending : Option String
  cancelled : Nat
  runs : List String
deriving DecidableEq, Repr

/-- Fresh coordinator state: nothing pending, nothing run. -/
def debounceInit : DebounceState := { pending := none, cancelled := 0, runs := [] }

/-- Core of `DiagnosticManager.updateDiagnostics` (lines 74-89) and
`PreviewManager.updatePreview` (part_005 lines 87-97): `clearTimeout` on the
existing timer (cancelling the pending computation, if any), then `setTimeout`
a new computation over the document, whose text at expiry is the text of this
(latest) event. -/
def debounceEvent (s : DebounceState) (text : String) : DebounceState :=
  { pending := some text,
    cancelled := s.cancelled + (if s.pending.isSome then 1 else 0),
    runs := s.runs }

/-- Expiry of the debounce window: the pending computation (if any) runs over
its text (`doUpdateDiagnostics` / `doUpdatePreview`) and the handle is
dropped. -/
def debounceExpire (s : DebounceState) : DebounceState :=
  match s.pending with
  | some t => { pending := none, cancelled := s.cancelled, runs := s.runs ++ [t] }
  | none => s

/-- `DiagnosticManager.updateDiagnostics` (lines 67-90): text-change events on
documents whose language is neither `xhtml` nor `xml` are ignored; others
restart the debounce. -/
def updateDiagnostics (languageId : String) (s : DebounceState) (text : String) : DebounceState :=
  if languageId = "xhtml" || languageId = "xml" then debounceEvent s text else s

/-- `PreviewManager.updatePreview` (part_005 lines 80-98): ignored when the
preview panel is closed or the language is unsupported; otherwise restarts the
debounce. -/
def updatePreview (panelOpen : Bool) (languageId : String) (s : DebounceState) (text : String) :
    DebounceState :=
  if panelOpen && (languageId = "html" || languageId = "xhtml" || languageId = "xml") then
    debounceEvent s text
  else s

/-- A burst of text-change events inside one debounce window, followed by the
window's expiry, for the diagnostics coordinator. -/
def diagnosticsBurst (languageId : String) (events : List String) : DebounceState :=
  debounceExpire (events.foldl (updateDiagnostics languageId) debounceInit)

/-- A burst of text-change events inside one debounce window, followed by the
window's expiry, for the preview coordinator. -/
def previewBurst (panelOpen : Bool) (languageId : String) (events : List String) : DebounceState :=
  debounceExpire (events.foldl (updatePreview panelOpen languageId) debounceInit)

/-- Normalization of path segments, as Node's `path.resolve` does after
joining: empty and `.` segments are dropped, `..` pops the previous segment
(at the root it is a no-op).  The accumulator holds the segments in reverse. -/
def normalizeSegs : List String → List String → List String
  | acc, [] => acc.reverse
  | acc, "" :: rest => normalizeSegs acc rest
  | acc, "." :: rest => normalizeSegs acc rest
  | acc, ".." :: rest => normalizeSegs acc.tail rest
  | acc, s :: rest => normalizeSegs (s :: acc) rest

/-- Split a character list on `'/'`. -/
def splitSlash : List Char → List (List Char)
  | [] => [[]]
  | c :: cs =>
    if c = '/' then [] :: splitSlash cs
    else
      match splitSlash cs with
      | [] => [[c]]
      | l :: ls => (c :: l) :: ls

/-- Node `path.resolve(base, p)` (POSIX, `base` absolute): an absolute `p`
wins, a relative `p` is joined onto `base`; the result is normalized. -/
def pathResolve (base p : String) : String :=
  let full := if "/".data.isPrefixOf p.data then p else base ++ "/" ++ p
  "/" ++ String.intercalate "/" (normalizeSegs [] ((splitSlash full.data).map String.mk))

/-- The lazy `([^"']+?)["']` part of the `fixImagePaths` pattern: an opening
quote (either kind), at least one non-quote character up to the first
following quote (either kind), that closing quote.  Returns the opening
quote, the source text, the closing quote, and the rest. -/
def takeToQuote : List Char → Option (List Char × Char × List Char)
  | [] => none
  | c :: cs =>
    if c = Char.ofNat 34 || c = Char.ofNat 39 then some ([], c, cs)
    else (takeToQuote cs).map (fun p => (c :: p.fst, p.snd.fst, p.snd.snd))

/-- The lazy `([^>]*?)>` tail of the `fixImagePaths` pattern: the characters
up to the first `'>'`, and the rest after it. -/
def takeToGt : List Char → Option (List Char × List Char)
  | [] => none
  | c :: cs =>
    if c = '>' then some ([], cs)
    else (takeToGt cs).map (fun p => (c :: p.fst, p.snd))

/-- One match of `/<img([^>]*?)src=["']([^"']+?)["']([^>]*?)>/`. -/
structure ImgMatch where
  before : List Char
  qOpen : Char
  src : List Char
  qClose : Char
  after : List Char
deriving DecidableEq, Repr

/-- The text the regular expression actually matched (used verbatim by the
pass-through branch of the replacer). -/
def matchedText (m : ImgMatch) : List Char :=
  "<img".data ++ m.before ++ "src=".data ++ m.qOpen :: (m.src ++ m.qClose :: (m.after ++ ['>']))

/-- `["']([^"']+?)["']` at the head of the input. -/
def parseQuotedSrc (cs : List Char) : Option (Char × List Char × Char × List Char) :=
  match cs with
  | [] => none
  | c :: rest =>
    if c = Char.ofNat 34 || c = Char.ofNat 39 then
      match takeToQuote rest with
      | some (src, qc, rest2) => if src.isEmpty then none else some (c, src, qc, rest2)
      | none => none
    else none

/-- One attempt of the lazy backtracking at the current offset: the literal
`src=`, then the quoted source, then the tail of the pattern; `none` when the
rest of the pattern does not match here. -/
def srcAttempt (cs : List Char) : Option (ImgMatch × List Char) :=
  if "src=".data.isPrefixOf cs then
    match parseQuotedSrc (cs.drop 4) with
    | some (qo, src, qc, rest1) =>
      match takeToGt rest1 with
      | some (after, rest2) =>
        some ({ before := [], qOpen := qo, src := src, qClose := qc, after := after }, rest2)
      | none => none
    | none => none
  else none

/-- The lazy `([^>]*?)` before `src=` in the `fixImagePaths` pattern, with the
JavaScript backtracking order: at each offset first try `src=` followed by the
whole rest of the pattern; on failure consume one more (non-`'>'`) character
into the group.  Returns the match pieces and the rest of the input. -/
def lazyBeforeSrc : Nat → List Char → Option (ImgMatch × List Char)
  | 0, _ => none
  | _ + 1, [] => none
  | fuel + 1, c :: cs =>
    (srcAttempt (c :: cs)).orElse (fun _ =>
      if c = '>' then none
      else (lazyBeforeSrc fuel cs).map (fun p => ({ p.fst with before := c :: p.fst.before }, p.snd)))

/-- A match of the `fixImagePaths` pattern starting exactly at the head of the
input: the literal `<img`, then the lazy group backtracking. -/
def imgMatchAt (cs : List Char) : Option (ImgMatch × List Char) :=
  if "<img".data.isPrefixOf cs then lazyBeforeSrc (cs.length + 1) (cs.drop 4) else none

/-- The pass-through test of `fixImagePaths` (part_005 line 237):
`src.startsWith('http') || src.startsWith('https') || src.startsWith('data:')
|| path.isAbsolute(src)` (POSIX: leading `/`). -/
def srcExempt (src : String) : Bool :=
  "http".data.isPrefixOf src.data || "https".data.isPrefixOf src.data
    || "data:".data.isPrefixOf src.data || "/".data.isPrefixOf src.data

/-- The `content.replace(regex, callback)` loop of
`PreviewManager.fixImagePaths` (part_005 lines 227-252), with
`asWebviewUri ∘ Uri.file` as the oracle `W`: exempt sources keep the matched
text unchanged, other sources are resolved against the document folder and
rewritten as `<img${before}src="${webviewUri}"${after}>`. -/
def fixImagePathsF (W : String → String) (docDir : String) : Nat → List Char → List Char
  | 0, cs => cs
  | _ + 1, [] => []
  | fuel + 1, c :: cs =>
    match imgMatchAt (c :: cs) with
    | some (m, rest) =>
      (if srcExempt (String.mk m.src) then matchedText m
       else "<img".data ++ m.before ++ "src=\"".data
              ++ (W (pathResolve docDir (String.mk m.src))).data
              ++ Char.ofNat 34 :: (m.after ++ ['>']))
        ++ fixImagePathsF W docDir fuel rest
    | none => c :: fixImagePathsF W docDir fuel cs

/-- `PreviewManager.fixImagePaths` on a whole content string. -/
def fixImagePaths (W : String → String) (docDir : String) (content : String) : String :=
  String.mk (fixImagePathsF W docDir (content.data.length + 1) content.data)

/-- The negative lookahead `(?!https?:\/\/)` of the `PreviewProvider` rewrite:
true when the input starts with `http://` or `https://`. -/
def lookaheadHttp (cs : List Char) : Bool :=
  "http://".data.isPrefixOf cs || "https://".data.isPrefixOf cs

/-- The greedy `([^"]+)"` of the `PreviewProvider` rewrite: the characters up
to the first `'"'` (which the class cannot cross), and the rest after it. -/
def takeToDquote : List Char → Option (List Char × List Char)
  | [] => none
  | c :: cs =>
    if c = Char.ofNat 34 then some ([], cs)
    else (takeToDquote cs).map (fun p => (c :: p.fst, p.snd))

/-- Backtracking of the greedy `[^>]+` of
`/(<img[^>]+src=")(?!https?:\/\/)([^"]+)"/`: try the largest consumption
first; a consumption of `k` succeeds when `src="` follows, the negative
lookahead holds, and a nonempty double-quote-delimited source follows.
Returns `(k, src, rest)`. -/
def tryK (cs : List Char) : Nat → Option (Nat × List Char × List Char)
  | 0 => none
  | k + 1 =>
    if "src=\"".data.isPrefixOf (cs.drop (k + 1))
        && !lookaheadHttp (cs.drop (k + 1 + 5)) then
      match takeToDquote (cs.drop (k + 1 + 5)) with
      | some (src, rest) => if src.isEmpty then tryK cs k else some (k + 1, src, rest)
      | none => tryK cs k
    else tryK cs k

/-- A match of the `PreviewProvider` rewrite pattern at the head of the input:
group 1 (`<img` + the consumed characters + `src="`), the source text, and
the rest after the closing quote. -/
def previewImgMatchAt (cs : List Char) : Option (List Char × List Char × List Char) :=
  if "<img".data.isPrefixOf cs then
    match tryK (cs.drop 4) (leadRun (cs.drop 4)) with
    | some (k, src, rest) =>
      some ("<img".data ++ (cs.drop 4).take k ++ "src=\"".data, src, rest)
    | none => none
  else none

/-- The `content.replace` loop of the `PreviewProvider` image rewrite
(previewProvider.ts lines 143-148 / part_008 lines 190-195): every matched
source (anything not starting with `http://` or `https://`, including `data:`
URIs and absolute paths) is resolved against the document folder and replaced
by `p1 + webviewUri + '"'`. -/
def previewRewriteF (W : String → String) (docDir : String) : Nat → List Char → List Char
  | 0, cs => cs
  | _ + 1, [] => []
  | fuel + 1, c :: cs =>
    match previewImgMatchAt (c :: cs) with
    | some (p1, src, rest) =>
      p1 ++ (W (pathResolve docDir (String.mk src))).data ++ Char.ofNat 34 :: previewRewriteF W docDir fuel rest
    | none => c :: previewRewriteF W docDir fuel cs

/-- The `PreviewProvider` image rewrite on a whole content string. -/
def previewImageRewrite (W : String → String) (docDir : String) (content : String) : String :=
  String.mk (previewRewriteF W docDir (content.data.length + 1) content.data)

/-- A concrete stand-in for the external `webview.asWebviewUri ∘ Uri.file`
conversion, used to exhibit rewrites on concrete inputs: it prefixes the
resolved path with a resource scheme, as the real conversion does. -/
def webviewUriStub (s : String) : String := "vscode-resource:" ++ s

/-! ## Helper lemmas -/

theorem fixImagePathsF_nil (W : String → String) (docDir : String) (fuel : Nat) :
    fixImagePathsF W docDir fuel [] = [] := by
  cases fuel <;> rfl

theorem fixImagePathsF_cons_of_match (W : String → String) (docDir : String) (fuel : Nat)
    (c : Char) (cs : List Char) (m : ImgMatch) (rest : List Char)
    (h : imgMatchAt (c :: cs) = some (m, rest)) :
    fixImagePathsF W docDir (fuel + 1) (c :: cs) =
      (if srcExempt (String.mk m.src) then matchedText m
       else "<img".data ++ m.before ++ "src=\"".data
         ++ (W (pathResolve docDir (String.mk m.src))).data
         ++ Char.ofNat 34 :: (m.after ++ ['>']))
      ++ fixImagePathsF W docDir fuel rest := by
  simp [fixImagePathsF, h]

theorem data_append (a b : String) : (a ++ b).data = a.data ++ b.data := by
  cases a; cases b; rfl

theorem mem_checkSelfClosingTags_warning (line : String) (n : Nat) :
    ∀ e ∈ checkSelfClosingTags line n, e.severity = Severity.warning := by
  intro e he
  simp only [checkSelfClosingTags, List.mem_flatMap, List.mem_map] at he
  obtain ⟨el, -, col, -, rfl⟩ := he
  rfl

theorem mem_requiredAttrScan_warning (el : String) (line : String) (n : Nat) :
    ∀ e ∈ requiredAttrScan el line n, e.severity = Severity.warning := by
  intro e he
  simp only [requiredAttrScan, List.mem_filterMap] at he
  obtain ⟨tag, -, htag⟩ := he
  by_cases hc : containsSub tag "alt=".data
  · simp [hc] at htag
  · simp [hc] at htag
    subst htag
    rfl

theorem mem_checkRequiredAttributes_warning (line : String) (n : Nat) :
    ∀ e ∈ checkRequiredAttributes line n, e.severity = Severity.warning := by
  intro e he
  rcases List.mem_append.1 he with h | h
  · exact mem_requiredAttrScan_warning _ _ _ _ h
  · exact mem_requiredAttrScan_warning _ _ _ _ h

theorem mem_checkDoctype_warning (line : String) (n : Nat) :
    ∀ e ∈ checkDoctype line n, e.severity = Severity.warning := by
  intro e he
  unfold checkDoctype at he
  split at he
  · simp only [List.mem_singleton] at he
    subst he
    rfl
  · simp at he

theorem mem_validateXHTMLSpecific_warning (content : String) :
    ∀ e ∈ validateXHTMLSpecific content, e.severity = Severity.warning := by
  intro e he
  simp only [validateXHTMLSpecific, List.mem_flatMap] at he
  obtain ⟨il, -, hmem⟩ := he
  rcases List.mem_append.1 hmem with h12 | h3
  · rcases List.mem_append.1 h12 with h1 | h2
    · exact mem_checkSelfClosingTags_warning _ _ _ h1
    · exact mem_checkRequiredAttributes_warning _ _ _ h2
  · revert h3
    split
    · exact fun h => mem_checkDoctype_warning _ _ _ h
    · simp

theorem validateXHTMLSpecific_any_error_false (content : String) :
    (validateXHTMLSpecific content).any (fun e => e.severity == Severity.error) = false := by
  rw [List.any_eq_false]
  intro e he
  simp [mem_validateXHTMLSpecific_warning content e he]
  rfl

/-! ## C1 -/

/-- C1: whenever the tier-1 well-formedness check fails (any error shape),
`validateXHTML` returns exactly one finding, that finding has severity
`error`, and — for a checker error carrying a (1-based) line — its line is
the checker's line minus one, its column the checker's column.  The result is
the same for every input text, so none of the tier-2 line rules contribute,
however many tier-2 violations the text contains. -/
theorem validateXHTML_tier1_failure (content : String) (parseOracle : Except String Unit)
    (err : Option CheckErr) (l : Nat) (c : Option Nat) (m : Option String) (hl : 1 ≤ l) :
    (validateXHTML (Tier1.invalid err) parseOracle content).errors = [parseValidationError err] ∧
    (parseValidationError err).severity = Severity.error ∧
    (validateXHTML (Tier1.invalid err) parseOracle content).isValid = false ∧
    validateXHTML (Tier1.invalid (some (CheckErr.fields (some l) c m))) parseOracle content =
      { isValid := false,
        errors := [{ line := l - 1, column := c.getD 0, message := m.getD "XML構文エラー",
                     severity := Severity.error }],
        data := none } := by
  refine ⟨rfl, ?_, rfl, rfl⟩
  rcases err with - | e
  · rfl
  · rcases e with ⟨l', c', m'⟩ | s <;> rfl

/-- Witness for C1: a checker failure at 1-based line 3 and column 5 on a text
full of tier-2 violations yields the single error finding at 0-based line 2. -/
theorem validateXHTML_tier1_failure_witness :
    1 ≤ 3 ∧
    validateXHTML (Tier1.invalid (some (CheckErr.fields (some 3) (some 5) (some "bad"))))
        (Except.ok ()) "<img src=\"a.png\">\n<img src=\"b.png\">" =
      { isValid := false,
        errors := [{ line := 2, column := 5, message := "bad", severity := Severity.error }],
        data := none } :=
  ⟨by decide,
   (validateXHTML_tier1_failure "<img src=\"a.png\">\n<img src=\"b.png\">" (Except.ok ())
      (some (CheckErr.fields (some 3) (some 5) (some "bad"))) 3 (some 5) (some "bad")
      (by decide)).2.2.2⟩

/-! ## C2 -/

/-- C2 (Scenario A): when the tier-1 check accepts the single-line text
`<img src="a.png">`, the findings are exactly one warning citing the missing
self-closing form and one warning citing the missing `alt` attribute, both at
line 0 (whatever the structure parser would return). -/
theorem validateXHTML_scenarioA (parseOracle : Except String Unit) :
    (validateXHTML Tier1.ok parseOracle "<img src=\"a.png\">").errors =
      [{ line := 0, column := 0, message := selfClosingMessage "img",
         severity := Severity.warning },
       { line := 0, column := 0, message := altMessage "img",
         severity := Severity.warning }] := by
  rfl

/-! ## C4 -/

/-- C4: `validateXHTML` is a total function (it can propagate no exception),
and whenever one of its two fallible external calls throws — the tier-1 check
itself, or the structure parse that runs once the text is still valid after
tier 2 — the result carries exactly one error finding, at position `(0, 0)`,
whose message describes the parse failure. -/
theorem validateXHTML_exception (content e : String) (tier1 : Tier1)
    (parseOracle : Except String Unit)
    (h : tier1 = Tier1.thrown e ∨
         (tier1 = Tier1.ok ∧ parseOracle = Except.error e ∧
          validateXHTMLSpecific content = [])) :
    validateXHTML tier1 parseOracle content =
      { isValid := false,
        errors := [{ line := 0, column := 0, message := "パースエラー: " ++ e,
                     severity := Severity.error }],
        data := none } := by
  rcases h with h | ⟨h1, h2, h3⟩
  · subst h; rfl
  · subst h1; subst h2
    simp [validateXHTML, h3, catchFinding]

/-- Witness for C4: a throwing tier-1 check is converted into the single
`(0, 0)` error finding. -/
theorem validateXHTML_exception_witness :
    (Tier1.thrown "boom" = Tier1.thrown "boom" ∨
     (Tier1.thrown "boom" = Tier1.ok ∧ (Except.ok () : Except String Unit) = Except.error "boom" ∧
      validateXHTMLSpecific "<a/>" = [])) ∧
    validateXHTML (Tier1.thrown "boom") (Except.ok ()) "<a/>" =
      { isValid := false,
        errors := [{ line := 0, column := 0, message := "パースエラー: " ++ "boom",
                     severity := Severity.error }],
        data := none } :=
  ⟨Or.inl rfl, validateXHTML_exception "<a/>" "boom" _ _ (Or.inl rfl)⟩

/-! ## C10 -/

/-- C10: after tier 1 passes, any nonempty tier-2 finding list — although all
its findings are warnings — makes the result invalid with the `data` field
absent; an empty tier-2 finding list leaves the result valid with `data`
populated (the structure parse succeeding). -/
theorem validateXHTML_tier2_validity (content : String) (parseOracle : Except String Unit) :
    (validateXHTMLSpecific content ≠ [] →
      validateXHTML Tier1.ok parseOracle content =
        { isValid := false, errors := validateXHTMLSpecific content, data := none }) ∧
    (validateXHTMLSpecific content = [] →
      validateXHTML Tier1.ok (Except.ok ()) content =
        { isValid := true, errors := [], data := some () }) := by
  constructor
  · intro h
    have hlen : 0 < (validateXHTMLSpecific content).length := List.length_pos.2 h
    simp [validateXHTML, hlen, validateXHTMLSpecific_any_error_false]
  · intro h
    simp [validateXHTML, h]

/-- Witness for C10: the tier-2 violations of `<img src="a.png">` (all
warnings) force `isValid = false` and no `data`; the clean `<a>x</a>` keeps
`isValid = true` with `data` present. -/
theorem validateXHTML_tier2_validity_witness :
    (validateXHTMLSpecific "<img src=\"a.png\">" ≠ [] ∧
     validateXHTMLSpecific "<a>x</a>" = []) ∧
    validateXHTML Tier1.ok (Except.ok ()) "<img src=\"a.png\">" =
      { isValid := false, errors := validateXHTMLSpecific "<img src=\"a.png\">",
        data := none } ∧
    validateXHTML Tier1.ok (Except.ok ()) "<a>x</a>" =
      { isValid := true, errors := [], data := some () } :=
  ⟨⟨by decide, by decide⟩,
   (validateXHTML_tier2_validity "<img src=\"a.png\">" (Except.ok ())).1 (by decide),
   (validateXHTML_tier2_validity "<a>x</a>" (Except.ok ())).2 (by decide)⟩

/-! ## C7 -/

/-- C7 (Scenario C): on the blank document the line map produces no
source-tagged `RenderedLine` (the single empty source line collapses to the
`<br>` spacer), and — the tier-1 check and structure parse accepting — the
validator returns no findings, the result staying valid. -/
theorem blankDocument_scenarioC :
    renderedLineEntries "" = [] ∧
    renderLines "" = ["<br>"] ∧
    validateXHTML Tier1.ok (Except.ok ()) "" =
      { isValid := true, errors := [], data := some () } := by
  decide

/-! ## C3 -/

/-- Every non-blank line of the rendered-line list appears verbatim inside the
joined output, wherever the enumeration starts. -/
theorem joinAll_renderLine_embeds (lines : List String) :
    ∀ (k : Nat) (line : String), line ∈ lines → trimChars line.data ≠ [] →
      ∃ l r, (joinAll ((lines.enumFrom k).map (fun il => renderLine il.fst il.snd))).data =
        l ++ line.data ++ r := by
  induction lines with
  | nil => intro k line h _; simp at h
  | cons x xs ih =>
    intro k line hmem hnb
    rcases List.mem_cons.1 hmem with rfl | hmem'
    · refine ⟨("<div data-line=\"" ++ natToStr (k + 1) ++ "\">").data,
        "</div>".data ++
          (joinAll ((xs.enumFrom (k + 1)).map (fun il => renderLine il.fst il.snd))).data, ?_⟩
      simp only [List.enumFrom, List.map_cons, joinAll, data_append, renderLine, hnb, if_neg]
      simp [data_append, List.append_assoc]
    · obtain ⟨l, r, hlr⟩ := ih (k + 1) line hmem' hnb
      refine ⟨(renderLine k x).data ++ l, r, ?_⟩
      simp only [List.enumFrom, List.map_cons, joinAll, data_append, hlr]
      simp [List.append_assoc]

/-- C3 counterexample: the line map performs no escaping — the fragment for
the source line `a<b` embeds the raw text, and differs from the fragment the
claim describes, in which the markup-breaking `<` would have been escaped
before embedding. -/
theorem renderLine_no_escaping_counterexample :
    renderContent "a<b" = "<div data-line=\"1\">a<b</div>" ∧
    escapeMarkup "a<b" = "a&lt;b" ∧
    renderContent "a<b" ≠ "<div data-line=\"1\">" ++ escapeMarkup "a<b" ++ "</div>" ∧
    renderLine 0 "a<b" ≠ renderLineEscaped 0 "a<b" := by
  decide

/-- C3 amended: the line-mapping transformation escapes nothing — every
non-blank source line is inserted verbatim (as a contiguous, unescaped
character run) into the rendered output. -/
theorem renderContent_embeds_source_verbatim (content line : String)
    (hmem : line ∈ splitNl content) (hnb : trimChars line.data ≠ []) :
    ∃ l r, (renderContent content).data = l ++ line.data ++ r := by
  have h := joinAll_renderLine_embeds (splitNl content) 0 line hmem hnb
  simpa [renderContent, renderLines, List.enum] using h

/-- Witness for the amended C3: the sole line of the document `a<b` is
non-blank and appears verbatim in the rendered output. -/
theorem renderContent_embeds_source_verbatim_witness :
    ("a<b" ∈ splitNl "a<b" ∧ trimChars "a<b".data ≠ []) ∧
    ∃ l r, (renderContent "a<b").data = l ++ "a<b".data ++ r :=
  ⟨⟨by decide, by decide⟩,
   renderContent_embeds_source_verbatim "a<b" "a<b" (by decide) (by decide)⟩

/-! ## C6 -/

/-- C6 counterexample: a reveal request for line 999 on a 10-line document is
passed to the host reveal call at 0-based line 998 — not at the document's
last valid line 9, which the clamp used by the diagnostics path would have
produced. -/
theorem handleRevealLine_no_clamp_counterexample :
    (handleRevealLine true false 999).revealedLine = some 998 ∧
    clampLine 998 10 = 9 ∧
    (handleRevealLine true false 999).revealedLine ≠ some (clampLine 998 10) := by
  decide

/-- C6 amended: the reveal handler never consults the document's line count —
it always passes `line - 1` (1-based to 0-based) to the host reveal call,
clears any prior highlight timer and schedules the 1000 ms decay; whenever the
request lies beyond the document, that target differs from the clamped target
(`clampLine`, the clamp the diagnostics path applies).  The handler is total,
so no error is raised; with no source editor the message is dropped. -/
theorem handleRevealLine_amended (b : Bool) (line lineCount : Nat)
    (hout : lineCount ≤ line - 1) (hpos : 0 < lineCount) :
    handleRevealLine true b line =
      { revealedLine := some (line - 1), highlightLine := some (line - 1),
        clearedPriorTimer := b, scheduledDecayMs := some 1000 } ∧
    line - 1 ≠ clampLine (line - 1) lineCount ∧
    handleRevealLine false b line =
      { revealedLine := none, highlightLine := none, clearedPriorTimer := false,
        scheduledDecayMs := none } := by
  refine ⟨rfl, ?_, rfl⟩
  unfold clampLine
  omega

/-- Witness for the amended C6: the line-999 request on a 10-line document. -/
theorem handleRevealLine_amended_witness :
    (10 ≤ 999 - 1 ∧ 0 < 10) ∧
    (handleRevealLine true false 999 =
      { revealedLine := some (999 - 1), highlightLine := some (999 - 1),
        clearedPriorTimer := false, scheduledDecayMs := some 1000 } ∧
     999 - 1 ≠ clampLine (999 - 1) 10 ∧
     handleRevealLine false false 999 =
      { revealedLine := none, highlightLine := none, clearedPriorTimer := false,
        scheduledDecayMs := none }) :=
  ⟨⟨by decide, by decide⟩, handleRevealLine_amended false 999 10 (by decide) (by decide)⟩

/-! ## C8 -/

/-- Folding a nonempty burst of events through the debounce: the pending
computation carries the last event's text, and every earlier pending
computation has been cancelled. -/
theorem foldl_debounceEvent (events : List String) :
    ∀ s : DebounceState, events ≠ [] →
      events.foldl debounceEvent s =
        { pending := some (events.getLastD ""),
          cancelled := s.cancelled + (if s.pending.isSome then 1 else 0) + (events.length - 1),
          runs := s.runs } := by
  induction events with
  | nil => intro s h; simp at h
  | cons x rest ih =>
    intro s hne
    cases rest with
    | nil => simp [debounceEvent]
    | cons y t =>
      have h := ih (debounceEvent s x) (by simp)
      simp only [List.foldl_cons] at h ⊢
      rw [h]
      simp [debounceEvent]
      omega

/-- C8: a burst of N text-change events on the same (supported) document
inside one debounce window, followed by the window's expiry, runs exactly one
validation pass and exactly one render pass, each over the text of the last
event; each of the N−1 earlier pending computations was cancelled when the
next event arrived, and nothing is left pending. -/
theorem debounce_collapsing (events : List String) (languageId : String)
    (h : events ≠ []) (hlang : languageId = "xhtml" ∨ languageId = "xml") :
    (diagnosticsBurst languageId events).runs = [events.getLastD ""] ∧
    (diagnosticsBurst languageId events).pending = none ∧
    (diagnosticsBurst languageId events).cancelled = events.length - 1 ∧
    (previewBurst true languageId events).runs = [events.getLastD ""] ∧
    (previewBurst true languageId events).pending = none ∧
    (previewBurst true languageId events).cancelled = events.length - 1 := by
  have hdiag : updateDiagnostics languageId = debounceEvent := by
    funext s t
    rcases hlang with rfl | rfl <;> simp [updateDiagnostics]
  have hprev : updatePreview true languageId = debounceEvent := by
    funext s t
    rcases hlang with rfl | rfl <;> simp [updatePreview]
  have hfold := foldl_debounceEvent events debounceInit h
  unfold diagnosticsBurst previewBurst
  rw [hdiag, hprev, hfold]
  simp [debounceInit, debounceExpire]

/-- Witness for C8: three events in one window produce one pass over `"c"`,
with two cancellations. -/
theorem debounce_collapsing_witness :
    ((["a", "b", "c"] : List String) ≠ [] ∧
     ("xhtml" = "xhtml" ∨ "xhtml" = "xml")) ∧
    ((diagnosticsBurst "xhtml" ["a", "b", "c"]).runs = [(["a", "b", "c"] : List String).getLastD ""] ∧
     (diagnosticsBurst "xhtml" ["a", "b", "c"]).pending = none ∧
     (diagnosticsBurst "xhtml" ["a", "b", "c"]).cancelled = (["a", "b", "c"] : List String).length - 1 ∧
     (previewBurst true "xhtml" ["a", "b", "c"]).runs = [(["a", "b", "c"] : List String).getLastD ""] ∧
     (previewBurst true "xhtml" ["a", "b", "c"]).pending = none ∧
     (previewBurst true "xhtml" ["a", "b", "c"]).cancelled = (["a", "b", "c"] : List String).length - 1) :=
  ⟨⟨by decide, Or.inl rfl⟩,
   debounce_collapsing ["a", "b", "c"] "xhtml" (by decide) (Or.inl rfl)⟩

/-! ## C5 -/

theorem leadRun_append_gt (xs : List Char) (r : List Char) (h : ∀ c ∈ xs, c ≠ '>') :
    leadRun (xs ++ '>' :: r) = xs.length := by
  induction xs with
  | nil => simp [leadRun]
  | cons x t ih =>
    have hx : x ≠ '>' := h x (List.mem_cons_self x t)
    show (if x = '>' then 0 else leadRun (t ++ '>' :: r) + 1) = t.length + 1
    rw [if_neg hx, ih (fun c hc => h c (List.mem_cons_of_mem _ hc))]

theorem tryGroupDesc_eq_of_ok (cs : List Char) (k : Nat) (h : groupOkAt cs k = true) :
    tryGroupDesc cs k = some (k + 2) := by
  cases k with
  | zero => simp [tryGroupDesc, h]
  | succ k' => simp [tryGroupDesc, h]

theorem groupOkAt_top (attrs : List Char) :
    groupOkAt (attrs ++ ['>']) attrs.length = false := by
  unfold groupOkAt
  have e2 : (attrs ++ ['>'])[attrs.length + 1]? = none := by
    apply List.getElem?_eq_none
    simp
  rw [e2]
  cases h1 : (attrs ++ ['>'])[attrs.length]? <;> rfl

theorem groupOkAt_last (a : Char) (as : List Char) (lc : Char)
    (hlast : (a :: as).getLast? = some lc) (hne : lc ≠ '/') :
    groupOkAt ((a :: as) ++ ['>']) as.length = true := by
  unfold groupOkAt
  have e1 : ((a :: as) ++ ['>'])[as.length]? = some lc := by
    rw [List.getElem?_append_left (by simp)]
    have h := List.getLast?_eq_getElem? (a :: as)
    rw [hlast] at h
    simpa using h.symm
  have e2 : ((a :: as) ++ ['>'])[as.length + 1]? = some '>' := by
    rw [show as.length + 1 = (a :: as).length from by simp]
    rw [List.getElem?_append_right (le_refl _)]
    simp
  rw [e1, e2]
  simp [hne]

theorem matchVoidAt_img (attrs : List Char) (hne : attrs ≠ [])
    (hgt : ∀ c ∈ attrs, c ≠ '>') (hlast : attrs.getLast? ≠ some '/') :
    matchVoidAt "img".data ('<' :: 'i' :: 'm' :: 'g' :: (attrs ++ ['>'])) =
      some (attrs.length + 5) := by
  obtain ⟨a, as, rfl⟩ := List.exists_cons_of_ne_nil hne
  obtain ⟨lc, hlc⟩ : ∃ lc, (a :: as).getLast? = some lc := by
    cases h : (a :: as).getLast? with
    | none => simp [List.getLast?_eq_none_iff] at h
    | some lc => exact ⟨lc, rfl⟩
  have hlcne : lc ≠ '/' := fun h => hlast (h ▸ hlc)
  have hlit : matchLiteralCI ('<' :: "img".data) ('<' :: 'i' :: 'm' :: 'g' :: ((a :: as) ++ ['>'])) =
      some ((a :: as) ++ ['>']) := rfl
  have hlead : leadRun ((a :: as) ++ ['>']) = as.length + 1 := by
    have h := leadRun_append_gt (a :: as) [] hgt
    simpa using h
  have hfalse : groupOkAt ((a :: as) ++ ['>']) (as.length + 1) = false := by
    have h := groupOkAt_top (a :: as)
    simpa using h
  have htrue := groupOkAt_last a as lc hlc hlcne
  show Option.map (fun g => 1 + "img".data.length + g)
      (tryGroupDesc (a :: as ++ ['>']) (leadRun (a :: as ++ ['>']))) =
    some ((a :: as).length + 5)
  rw [hlead]
  have hstep : tryGroupDesc (a :: as ++ ['>']) (as.length + 1) =
      tryGroupDesc (a :: as ++ ['>']) as.length := by
    rw [show tryGroupDesc (a :: as ++ ['>']) (as.length + 1) =
          (if groupOkAt (a :: as ++ ['>']) (as.length + 1) = true then some (as.length + 3)
           else tryGroupDesc (a :: as ++ ['>']) as.length) from rfl]
    rw [hfalse]
    simp
  rw [hstep, tryGroupDesc_eq_of_ok _ _ htrue]
  simp only [Option.map_some]
  simp
  omega

theorem scanVoidF_nil (el : List Char) (fuel pos : Nat) : scanVoidF el fuel [] pos = [] := by
  cases fuel <;> rfl

theorem scanVoidF_cons_match (el : List Char) (fuel : Nat) (c : Char) (cs : List Char)
    (pos n : Nat) (h : matchVoidAt el (c :: cs) = some n) :
    scanVoidF el (fuel + 1) (c :: cs) pos = pos :: scanVoidF el fuel ((c :: cs).drop n) (pos + n) := by
  simp [scanVoidF, h]

theorem scanVoidF_cons_none (el : List Char) (fuel : Nat) (c : Char) (cs : List Char)
    (pos : Nat) (h : matchVoidAt el (c :: cs) = none) :
    scanVoidF el (fuel + 1) (c :: cs) pos = scanVoidF el fuel cs (pos + 1) := by
  simp [scanVoidF, h]

theorem scanVoidF_no_lt (el : List Char) :
    ∀ (fuel : Nat) (cs : List Char) (pos : Nat),
      (∀ c ∈ cs, c.toLower ≠ '<') → scanVoidF el fuel cs pos = [] := by
  intro fuel
  induction fuel with
  | zero => intro cs pos _; rfl
  | succ f ih =>
    intro cs pos h
    cases cs with
    | nil => rfl
    | cons c cs' =>
      have hc : c.toLower ≠ '<' := h c (List.mem_cons_self c cs')
      have hlc : lcEq '<' c = false := by
        simp only [lcEq, beq_eq_false_iff_ne]
        intro hh
        exact hc (by rw [← hh]; rfl)
      have hm : matchVoidAt el (c :: cs') = none := by
        unfold matchVoidAt matchLiteralCI
        rw [hlc]
        rfl
      rw [scanVoidF_cons_none el f c cs' pos hm]
      exact ih cs' (pos + 1) (fun x hx => h x (List.mem_cons_of_mem _ hx))

/-- C5 counterexample: `<img>` is an open tag of the void element `img`
without a trailing `/>`, yet the rule produces no warning for it (the scan
pattern needs at least one character between the name and `>`); conversely
the non-void element `bra` triggers the `br` warning (the scan does not check
the name boundary), while an ordinary `<img ...>` occurrence does warn. -/
theorem checkSelfClosingTags_counterexample :
    checkSelfClosingTags "<img>" 0 = [] ∧
    checkSelfClosingTags "<bra>" 0 =
      [{ line := 0, column := 0, message := selfClosingMessage "br",
         severity := Severity.warning }] ∧
    checkSelfClosingTags "<img src=\"a\">" 0 =
      [{ line := 0, column := 0, message := selfClosingMessage "img",
         severity := Severity.warning }] := by
  decide

/-- C5 amended: for a void element written `<img ...>` with at least one
character between the name and the closing `>`, the last of them not `/`,
the rule emits exactly one warning at the occurrence's column; but a bare
`<img>` (nothing between name and `>`) emits none, and the scan does not
verify name boundaries, so an element whose name merely begins with a void
name (here `<bra>`, matching `br`) also triggers that void element's
warning. -/
theorem checkSelfClosingTags_amended (attrs : List Char) (n : Nat)
    (hne : attrs ≠ [])
    (hch : ∀ c ∈ attrs, c ≠ '>' ∧ c.toLower ≠ '<')
    (hlast : attrs.getLast? ≠ some '/') :
    checkSelfClosingTags ⟨'<' :: 'i' :: 'm' :: 'g' :: (attrs ++ ['>'])⟩ n =
      [{ line := n, column := 0, message := selfClosingMessage "img",
         severity := Severity.warning }] ∧
    checkSelfClosingTags "<img>" n = [] ∧
    checkSelfClosingTags "<bra>" n =
      [{ line := n, column := 0, message := selfClosingMessage "br",
         severity := Severity.warning }] := by
  refine ⟨?_, rfl, rfl⟩
  have hrest : ∀ c ∈ ('i' :: 'm' :: 'g' :: (attrs ++ ['>'])), c.toLower ≠ '<' := by
    intro c hc
    simp only [List.mem_cons, List.mem_append] at hc
    rcases hc with rfl | rfl | rfl | hc | hc
    · decide
    · decide
    · decide
    · exact (hch c hc).2
    · simp only [List.mem_cons, List.not_mem_nil, or_false] at hc
      subst hc
      decide
  have hother : ∀ el : List Char,
      matchVoidAt el ('<' :: 'i' :: 'm' :: 'g' :: (attrs ++ ['>'])) = none →
      scanVoidF el (('<' :: 'i' :: 'm' :: 'g' :: (attrs ++ ['>'])).length + 1)
        ('<' :: 'i' :: 'm' :: 'g' :: (attrs ++ ['>'])) 0 = [] := by
    intro el hm
    rw [scanVoidF_cons_none el _ _ _ _ hm]
    exact scanVoidF_no_lt el _ _ _ hrest
  have himg := matchVoidAt_img attrs hne (fun c hc => (hch c hc).1) hlast
  have himgScan : scanVoidF "img".data (('<' :: 'i' :: 'm' :: 'g' :: (attrs ++ ['>'])).length + 1)
      ('<' :: 'i' :: 'm' :: 'g' :: (attrs ++ ['>'])) 0 = [0] := by
    rw [scanVoidF_cons_match "img".data _ _ _ _ _ himg]
    have hdrop : ('<' :: 'i' :: 'm' :: 'g' :: (attrs ++ ['>'])).drop (attrs.length + 5) = [] := by
      apply List.drop_eq_nil_of_le
      simp
    rw [hdrop, scanVoidF_nil]
  have h1 : matchVoidAt "area".data ('<' :: 'i' :: 'm' :: 'g' :: (attrs ++ ['>'])) = none := rfl
  have h2 : matchVoidAt "base".data ('<' :: 'i' :: 'm' :: 'g' :: (attrs ++ ['>'])) = none := rfl
  have h3 : matchVoidAt "br".data ('<' :: 'i' :: 'm' :: 'g' :: (attrs ++ ['>'])) = none := rfl
  have h4 : matchVoidAt "col".data ('<' :: 'i' :: 'm' :: 'g' :: (attrs ++ ['>'])) = none := rfl
  have h5 : matchVoidAt "embed".data ('<' :: 'i' :: 'm' :: 'g' :: (attrs ++ ['>'])) = none := rfl
  have h6 : matchVoidAt "hr".data ('<' :: 'i' :: 'm' :: 'g' :: (attrs ++ ['>'])) = none := rfl
  have h7 : matchVoidAt "input".data ('<' :: 'i' :: 'm' :: 'g' :: (attrs ++ ['>'])) = none := rfl
  have h8 : matchVoidAt "link".data ('<' :: 'i' :: 'm' :: 'g' :: (attrs ++ ['>'])) = none := rfl
  have h9 : matchVoidAt "meta".data ('<' :: 'i' :: 'm' :: 'g' :: (attrs ++ ['>'])) = none := rfl
  have h10 : matchVoidAt "source".data ('<' :: 'i' :: 'm' :: 'g' :: (attrs ++ ['>'])) = none := rfl
  have h11 : matchVoidAt "track".data ('<' :: 'i' :: 'm' :: 'g' :: (attrs ++ ['>'])) = none := rfl
  have h12 : matchVoidAt "wbr".data ('<' :: 'i' :: 'm' :: 'g' :: (attrs ++ ['>'])) = none := rfl
  have s1 : scanVoidF ['a', 'r', 'e', 'a']
      ((String.mk ('<' :: 'i' :: 'm' :: 'g' :: (attrs ++ ['>']))).length + 1)
      ('<' :: 'i' :: 'm' :: 'g' :: (attrs ++ ['>'])) 0 = [] := hother _ h1
  have s2 : scanVoidF ['b', 'a', 's', 'e']
      ((String.mk ('<' :: 'i' :: 'm' :: 'g' :: (attrs ++ ['>']))).length + 1)
      ('<' :: 'i' :: 'm' :: 'g' :: (attrs ++ ['>'])) 0 = [] := hother _ h2
  have s3 : scanVoidF ['b', 'r']
      ((String.mk ('<' :: 'i' :: 'm' :: 'g' :: (attrs ++ ['>']))).length + 1)
      ('<' :: 'i' :: 'm' :: 'g' :: (attrs ++ ['>'])) 0 = [] := hother _ h3
  have s4 : scanVoidF ['c', 'o', 'l']
      ((String.mk ('<' :: 'i' :: 'm' :: 'g' :: (attrs ++ ['>']))).length + 1)
      ('<' :: 'i' :: 'm' :: 'g' :: (attrs ++ ['>'])) 0 = [] := hother _ h4
  have s5 : scanVoidF ['e', 'm', 'b', 'e', 'd']
      ((String.mk ('<' :: 'i' :: 'm' :: 'g' :: (attrs ++ ['>']))).length + 1)
      ('<' :: 'i' :: 'm' :: 'g' :: (attrs ++ ['>'])) 0 = [] := hother _ h5
  have s6 : scanVoidF ['h', 'r']
      ((String.mk ('<' :: 'i' :: 'm' :: 'g' :: (attrs ++ ['>']))).length + 1)
      ('<' :: 'i' :: 'm' :: 'g' :: (attrs ++ ['>'])) 0 = [] := hother _ h6
  have s7 : scanVoidF ['i', 'm', 'g']
      ((String.mk ('<' :: 'i' :: 'm' :: 'g' :: (attrs ++ ['>']))).length + 1)
      ('<' :: 'i' :: 'm' :: 'g' :: (attrs ++ ['>'])) 0 = [0] := himgScan
  have s8 : scanVoidF ['i', 'n', 'p', 'u', 't']
      ((String.mk ('<' :: 'i' :: 'm' :: 'g' :: (attrs ++ ['>']))).length + 1)
      ('<' :: 'i' :: 'm' :: 'g' :: (attrs ++ ['>'])) 0 = [] := hother _ h7
  have s9 : scanVoidF ['l', 'i', 'n', 'k']
      ((String.mk ('<' :: 'i' :: 'm' :: 'g' :: (attrs ++ ['>']))).length + 1)
      ('<' :: 'i' :: 'm' :: 'g' :: (attrs ++ ['>'])) 0 = [] := hother _ h8
  have s10 : scanVoidF ['m', 'e', 't', 'a']
      ((String.mk ('<' :: 'i' :: 'm' :: 'g' :: (attrs ++ ['>']))).length + 1)
      ('<' :: 'i' :: 'm' :: 'g' :: (attrs ++ ['>'])) 0 = [] := hother _ h9
  have s11 : scanVoidF ['s', 'o', 'u', 'r', 'c', 'e']
      ((String.mk ('<' :: 'i' :: 'm' :: 'g' :: (attrs ++ ['>']))).length + 1)
      ('<' :: 'i' :: 'm' :: 'g' :: (attrs ++ ['>'])) 0 = [] := hother _ h10
  have s12 : scanVoidF ['t', 'r', 'a', 'c', 'k']
      ((String.mk ('<' :: 'i' :: 'm' :: 'g' :: (attrs ++ ['>']))).length + 1)
      ('<' :: 'i' :: 'm' :: 'g' :: (attrs ++ ['>'])) 0 = [] := hother _ h11
  have s13 : scanVoidF ['w', 'b', 'r']
      ((String.mk ('<' :: 'i' :: 'm' :: 'g' :: (attrs ++ ['>']))).length + 1)
      ('<' :: 'i' :: 'm' :: 'g' :: (attrs ++ ['>'])) 0 = [] := hother _ h12
  show voidElements.flatMap _ = _
  simp only [voidElements, List.flatMap_cons, List.flatMap_nil, List.append_nil]
  simp only [s1, s2, s3, s4, s5, s6, s7, s8, s9, s10, s11, s12, s13]
  simp

/-- Witness for the amended C5: `attrs = " src=\"a\""` satisfies the side
conditions, and `<img src="a">` receives exactly one self-closing warning at
column 0 (with the bare-`<img>` and `<bra>` behaviors alongside). -/
theorem checkSelfClosingTags_amended_witness :
    ((" src=\"a\"".data ≠ []) ∧
     (∀ c ∈ " src=\"a\"".data, c ≠ '>' ∧ c.toLower ≠ '<') ∧
     " src=\"a\"".data.getLast? ≠ some '/') ∧
    (checkSelfClosingTags ⟨'<' :: 'i' :: 'm' :: 'g' :: (" src=\"a\"".data ++ ['>'])⟩ 7 =
      [{ line := 7, column := 0, message := selfClosingMessage "img",
         severity := Severity.warning }] ∧
     checkSelfClosingTags "<img>" 7 = [] ∧
     checkSelfClosingTags "<bra>" 7 =
      [{ line := 7, column := 0, message := selfClosingMessage "br",
         severity := Severity.warning }]) :=
  ⟨⟨by decide, by decide, by decide⟩,
   checkSelfClosingTags_amended " src=\"a\"".data 7 (by decide) (by decide) (by decide)⟩

/-! ## C9 -/

/-- C9 counterexample: the `PreviewProvider` rewrite, whose lookahead exempts
only `http://` and `https://`, rewrites an embedded-data reference and an
absolute path instead of passing them through unchanged (while
`PreviewManager.fixImagePaths` does leave the `data:` reference untouched,
and both leave genuine network URLs alone). -/
theorem previewRewrite_counterexample :
    previewImageRewrite webviewUriStub "/doc" "<img src=\"data:abc\">" =
      "<img src=\"vscode-resource:/doc/data:abc\">" ∧
    previewImageRewrite webviewUriStub "/doc" "<img src=\"data:abc\">" ≠
      "<img src=\"data:abc\">" ∧
    previewImageRewrite webviewUriStub "/doc" "<img src=\"/a/b.png\">" =
      "<img src=\"vscode-resource:/a/b.png\">" ∧
    previewImageRewrite webviewUriStub "/doc" "<img src=\"/a/b.png\">" ≠
      "<img src=\"/a/b.png\">" ∧
    previewImageRewrite webviewUriStub "/doc" "<img src=\"http://x/a.png\">" =
      "<img src=\"http://x/a.png\">" ∧
    fixImagePaths webviewUriStub "/doc" "<img src=\"data:abc\">" = "<img src=\"data:abc\">" := by
  decide

theorem takeToQuote_append (q : Char) (r : List Char)
    (hqq : q = Char.ofNat 34 ∨ q = Char.ofNat 39) :
    ∀ S : List Char, (∀ c ∈ S, c ≠ Char.ofNat 34 ∧ c ≠ Char.ofNat 39) →
      takeToQuote (S ++ q :: r) = some (S, q, r) := by
  intro S
  induction S with
  | nil =>
    intro _
    rcases hqq with rfl | rfl <;> simp [takeToQuote]
  | cons x t ih =>
    intro hq
    have hx := hq x (List.mem_cons_self x t)
    have ht := ih (fun c hc => hq c (List.mem_cons_of_mem _ hc))
    simp [takeToQuote, hx.1, hx.2, ht]

theorem lazyBeforeSrc_canonical (S : List Char) (f : Nat) (hne : S ≠ [])
    (hq : ∀ c ∈ S, c ≠ Char.ofNat 34 ∧ c ≠ Char.ofNat 39) :
    lazyBeforeSrc (f + 2)
        (' ' :: 's' :: 'r' :: 'c' :: '=' :: Char.ofNat 34 :: (S ++ [Char.ofNat 34, '>'])) =
      some ({ before := [' '], qOpen := Char.ofNat 34, src := S, qClose := Char.ofNat 34,
              after := [] }, []) := by
  have htq : takeToQuote (S ++ Char.ofNat 34 :: ['>']) = some (S, Char.ofNat 34, ['>']) :=
    takeToQuote_append (Char.ofNat 34) ['>'] (Or.inl rfl) S hq
  have hpq : parseQuotedSrc (Char.ofNat 34 :: (S ++ [Char.ofNat 34, '>'])) =
      some (Char.ofNat 34, S, Char.ofNat 34, ['>']) := by
    show (match takeToQuote (S ++ [Char.ofNat 34, '>']) with
      | some (src, qc, rest2) =>
        if src.isEmpty then none else some (Char.ofNat 34, src, qc, rest2)
      | none => none) = some (Char.ofNat 34, S, Char.ofNat 34, ['>'])
    rw [htq]
    simp [hne]
  have hsrc : srcAttempt ('s' :: 'r' :: 'c' :: '=' :: Char.ofNat 34 :: (S ++ [Char.ofNat 34, '>'])) =
      some ({ before := [], qOpen := Char.ofNat 34, src := S, qClose := Char.ofNat 34,
              after := [] }, []) := by
    unfold srcAttempt
    rw [if_pos (show ("src=".data.isPrefixOf
      ('s' :: 'r' :: 'c' :: '=' :: Char.ofNat 34 :: (S ++ [Char.ofNat 34, '>']))) = true from rfl)]
    rw [show (('s' :: 'r' :: 'c' :: '=' :: Char.ofNat 34 :: (S ++ [Char.ofNat 34, '>'])).drop 4) =
          Char.ofNat 34 :: (S ++ [Char.ofNat 34, '>']) from rfl]
    rw [hpq]
    rfl
  have hstep2 : lazyBeforeSrc (f + 1)
      ('s' :: 'r' :: 'c' :: '=' :: Char.ofNat 34 :: (S ++ [Char.ofNat 34, '>'])) =
      some ({ before := [], qOpen := Char.ofNat 34, src := S, qClose := Char.ofNat 34,
              after := [] }, []) := by
    have e1 : lazyBeforeSrc (f + 1)
        ('s' :: 'r' :: 'c' :: '=' :: Char.ofNat 34 :: (S ++ [Char.ofNat 34, '>'])) =
        (srcAttempt ('s' :: 'r' :: 'c' :: '=' :: Char.ofNat 34 ::
            (S ++ [Char.ofNat 34, '>']))).orElse (fun _ =>
          (lazyBeforeSrc f ('r' :: 'c' :: '=' :: Char.ofNat 34 :: (S ++ [Char.ofNat 34, '>']))).map
            (fun p => ({ p.fst with before := 's' :: p.fst.before }, p.snd))) := rfl
    rw [e1, hsrc]
    rfl
  have e2 : lazyBeforeSrc (f + 2)
      (' ' :: 's' :: 'r' :: 'c' :: '=' :: Char.ofNat 34 :: (S ++ [Char.ofNat 34, '>'])) =
      (lazyBeforeSrc (f + 1)
          ('s' :: 'r' :: 'c' :: '=' :: Char.ofNat 34 :: (S ++ [Char.ofNat 34, '>']))).map
        (fun p => ({ p.fst with before := ' ' :: p.fst.before }, p.snd)) := rfl
  rw [e2, hstep2]
  rfl

theorem imgMatchAt_canonical (S : List Char) (hne : S ≠ [])
    (hq : ∀ c ∈ S, c ≠ Char.ofNat 34 ∧ c ≠ Char.ofNat 39) :
    imgMatchAt ('<' :: 'i' :: 'm' :: 'g' :: ' ' :: 's' :: 'r' :: 'c' :: '=' :: Char.ofNat 34 ::
        (S ++ [Char.ofNat 34, '>'])) =
      some ({ before := [' '], qOpen := Char.ofNat 34, src := S, qClose := Char.ofNat 34,
              after := [] }, []) := by
  unfold imgMatchAt
  rw [if_pos (show ("<img".data.isPrefixOf
    ('<' :: 'i' :: 'm' :: 'g' :: ' ' :: 's' :: 'r' :: 'c' :: '=' :: Char.ofNat 34 ::
      (S ++ [Char.ofNat 34, '>']))) = true from rfl)]
  rw [show (('<' :: 'i' :: 'm' :: 'g' :: ' ' :: 's' :: 'r' :: 'c' :: '=' :: Char.ofNat 34 ::
      (S ++ [Char.ofNat 34, '>'])).drop 4) =
    ' ' :: 's' :: 'r' :: 'c' :: '=' :: Char.ofNat 34 :: (S ++ [Char.ofNat 34, '>']) from rfl]
  rw [show ('<' :: 'i' :: 'm' :: 'g' :: ' ' :: 's' :: 'r' :: 'c' :: '=' :: Char.ofNat 34 ::
      (S ++ [Char.ofNat 34, '>'])).length + 1 = (S.length + 11) + 2 from by simp]
  exact lazyBeforeSrc_canonical S (S.length + 11) hne hq

/-- C9 amended: `PreviewManager.fixImagePaths` on a canonical image tag
`<img src="S">`: a source starting with `http` (any network URL), `data:` or
`/` (absolute) passes through unchanged, any other source is resolved against
the document's folder and rewritten to the rendering surface's resource
scheme (the oracle `W`, standing for `asWebviewUri ∘ Uri.file`).  The
`PreviewProvider` rewrite does not satisfy this: see the counterexample,
where it rewrites `data:` and absolute references. -/
theorem fixImagePaths_amended (W : String → String) (docDir : String) (S : List Char)
    (hne : S ≠ [])
    (hq : ∀ c ∈ S, c ≠ Char.ofNat 34 ∧ c ≠ Char.ofNat 39) :
    (srcExempt (String.mk S) = true →
      fixImagePaths W docDir (String.mk ("<img src=\"".data ++ S ++ "\">".data)) =
        String.mk ("<img src=\"".data ++ S ++ "\">".data)) ∧
    (srcExempt (String.mk S) = false →
      fixImagePaths W docDir (String.mk ("<img src=\"".data ++ S ++ "\">".data)) =
        String.mk ("<img src=\"".data ++ (W (pathResolve docDir (String.mk S))).data
          ++ "\">".data)) := by
  have hmatch := imgMatchAt_canonical S hne hq
  constructor <;> intro hex
  · show String.mk (fixImagePathsF W docDir
      (('<' :: 'i' :: 'm' :: 'g' :: ' ' :: 's' :: 'r' :: 'c' :: '=' :: Char.ofNat 34 ::
        (S ++ [Char.ofNat 34, '>'])).length + 1)
      ('<' :: 'i' :: 'm' :: 'g' :: ' ' :: 's' :: 'r' :: 'c' :: '=' :: Char.ofNat 34 ::
        (S ++ [Char.ofNat 34, '>']))) =
      String.mk ('<' :: 'i' :: 'm' :: 'g' :: ' ' :: 's' :: 'r' :: 'c' :: '=' :: Char.ofNat 34 ::
        (S ++ [Char.ofNat 34, '>']))
    refine congrArg String.mk ?_
    rw [fixImagePathsF_cons_of_match W docDir _ _ _ _ _ hmatch]
    simp [hex, matchedText, fixImagePathsF_nil]
  · show String.mk (fixImagePathsF W docDir
      (('<' :: 'i' :: 'm' :: 'g' :: ' ' :: 's' :: 'r' :: 'c' :: '=' :: Char.ofNat 34 ::
        (S ++ [Char.ofNat 34, '>'])).length + 1)
      ('<' :: 'i' :: 'm' :: 'g' :: ' ' :: 's' :: 'r' :: 'c' :: '=' :: Char.ofNat 34 ::
        (S ++ [Char.ofNat 34, '>']))) =
      String.mk ("<img src=\"".data ++ (W (pathResolve docDir (String.mk S))).data
        ++ "\">".data)
    refine congrArg String.mk ?_
    rw [fixImagePathsF_cons_of_match W docDir _ _ _ _ _ hmatch]
    simp [hex, fixImagePathsF_nil]

/-- Witness for the amended C9: the relative source `a.png` is rewritten via
the resolved path, and the embedded-data source `data:abc` passes through
`fixImagePaths` unchanged. -/
theorem fixImagePaths_amended_witness :
    (("a.png".data ≠ [] ∧
      (∀ c ∈ "a.png".data, c ≠ Char.ofNat 34 ∧ c ≠ Char.ofNat 39) ∧
      srcExempt (String.mk "a.png".data) = false) ∧
     ("data:abc".data ≠ [] ∧
      (∀ c ∈ "data:abc".data, c ≠ Char.ofNat 34 ∧ c ≠ Char.ofNat 39) ∧
      srcExempt (String.mk "data:abc".data) = true)) ∧
    fixImagePaths webviewUriStub "/doc"
        (String.mk ("<img src=\"".data ++ "a.png".data ++ "\">".data)) =
      String.mk ("<img src=\"".data
        ++ (webviewUriStub (pathResolve "/doc" (String.mk "a.png".data))).data
        ++ "\">".data) ∧
    fixImagePaths webviewUriStub "/doc"
        (String.mk ("<img src=\"".data ++ "data:abc".data ++ "\">".data)) =
      String.mk ("<img src=\"".data ++ "data:abc".data ++ "\">".data) :=
  ⟨⟨⟨by decide, by decide, by decide⟩, ⟨by decide, by decide, by decide⟩⟩,
   (fixImagePaths_amended webviewUriStub "/doc" "a.png".data (by decide) (by decide)).2
     (by decide),
   (fixImagePaths_amended webviewUriStub "/doc" "data:abc".data (by decide) (by decide)).1
     (by decide)⟩
